import Mathlib

/-!
Verification of the RaspberryPi WiFi security tool's detection/mitigation engine.

The Python modules `DeauthDetection.py`, `RogueAPDetection.py` and `MQTTHelper.py`
are shallowly embedded below: module-level mutable dictionaries become explicit
state records, `time.time()` timestamps become rationals (Python floats are
rationals), Python dicts become association lists with Python's lookup/replace
semantics, and Python sets become duplicate-free lists in insertion order
(CPython set iteration order is arbitrary; what matters for the claims is that
no sorting is applied anywhere).
-/

set_option autoImplicit false

namespace WiFiTool

/-! ### Python string primitives -/

/-- ASCII lower-casing of one character, as `str.lower` acts on the ASCII
range (MAC addresses and the SSIDs in the claims are ASCII). -/
def lowerChar (c : Char) : Char :=
  if 'A' ≤ c ∧ c ≤ 'Z' then Char.ofNat (c.toNat + 32) else c

/-- Model of Python `str.lower`. -/
def pyLower (s : String) : String := String.mk (s.data.map lowerChar)

/-- Characters stripped by Python `str.strip()` (ASCII whitespace). -/
def isPySpace (c : Char) : Bool :=
  c = ' ' || c = '\t' || c = '\n' || c = '\r' || c = '\x0b' || c = '\x0c'

/-- Model of Python `str.strip()`: drop whitespace from both ends. -/
def pyStrip (s : String) : String :=
  String.mk (((s.data.dropWhile isPySpace).reverse.dropWhile isPySpace).reverse)

/-- Fuel-driven core of Python `str.replace`: replace non-overlapping
occurrences of `pat` left to right.  The fuel is the length of the input, which
suffices because every step consumes at least one character. -/
def replaceAux (pat rep : List Char) : Nat → List Char → List Char
  | 0, l => l
  | _ + 1, [] => []
  | fuel + 1, c :: rest =>
    if pat.isPrefixOf (c :: rest) ∧ pat ≠ [] then
      rep ++ replaceAux pat rep fuel (List.drop pat.length (c :: rest))
    else
      c :: replaceAux pat rep fuel rest

/-- Model of Python `str.replace` (for a non-empty pattern, the only use here). -/
def pyReplace (s pat rep : String) : String :=
  String.mk (replaceAux pat.data rep.data s.data.length s.data)

/-- Splitting on the colon character, as Python `"x:y".split(":")`
(`"".split(":") == [""]`). -/
def splitColon : List Char → List (List Char)
  | [] => [[]]
  | c :: rest =>
    if c = ':' then [] :: splitColon rest
    else
      match splitColon rest with
      | [] => [[c]]
      | g :: gs => (c :: g) :: gs

/-- Joining with the colon character, as Python `":".join(parts)`. -/
def joinColon : List (List Char) → List Char
  | [] => []
  | [g] => g
  | g :: gs => g ++ ':' :: joinColon gs

/-- Python string comparison (code-point lexicographic), Boolean strict less. -/
def strLtB : List Char → List Char → Bool
  | [], [] => false
  | [], _ :: _ => true
  | _ :: _, [] => false
  | a :: as, b :: bs =>
    if a.toNat < b.toNat then true
    else if b.toNat < a.toNat then false
    else strLtB as bs

/-- A list of strings is sorted in Python's `sorted` order iff no adjacent
pair is strictly descending. -/
def isSortedStrings : List String → Bool
  | [] => true
  | [_] => true
  | a :: b :: rest => (!strLtB b.data a.data) && isSortedStrings (b :: rest)

/-! ### Python dict / set primitives (string keys) -/

/-- Python dict lookup `d[k]` / `k in d`. -/
def alistGet {α : Type} : List (String × α) → String → Option α
  | [], _ => none
  | (k0, v0) :: rest, k => if k0 = k then some v0 else alistGet rest k

/-- Python dict assignment `d[k] = v`: update in place if present, else append. -/
def alistSet {α : Type} : List (String × α) → String → α → List (String × α)
  | [], k, v => [(k, v)]
  | (k0, v0) :: rest, k, v =>
    if k0 = k then (k, v) :: rest else (k0, v0) :: alistSet rest k v

/-- Python `del d[k]`. -/
def alistErase {α : Type} (l : List (String × α)) (k : String) : List (String × α) :=
  l.filter (fun p => p.1 ≠ k)

/-- Python `set.add`, modelled on an insertion-ordered duplicate-free list. -/
def listInsert (l : List String) (s : String) : List String :=
  if s ∈ l then l else l ++ [s]

/-! ### DeauthDetection.py -/

/-- `Threshold = 15` from DeauthDetection.py. -/
def Threshold : Nat := 15

/-- `TimeWindow = 5` (seconds) from DeauthDetection.py. -/
def TimeWindow : ℚ := 5

/-- The payload fields of a `deauth_attack` alert that the detection logic
computes (`PublishDeauthAlert` additionally stamps the constant
`spoofed = true`, `time_window = TimeWindow` and a wall-clock string). -/
structure DeauthAlert where
  destination : String
  frame_count : Nat
  max_frame_count : Nat
  most_frequent_attacker : String
  deriving DecidableEq, Repr

/-- The module-level mutable dictionaries of DeauthDetection.py. -/
structure DeauthState where
  DeauthRecords : List (String × List (ℚ × String))
  MaxDeauthCounts : List (String × Nat)
  LastAlertTime : List (String × ℚ)
  deriving DecidableEq, Repr

/-- The empty module state at process start. -/
def initDeauthState : DeauthState := ⟨[], [], []⟩

/-- The window of `Destination` after appending the new record and removing
records older than `TimeWindow` seconds (`CurrentTime - T <= TimeWindow`,
an inclusive test; a record with `T > CurrentTime` gives a negative age and
is retained). -/
def prunedWindow (st : DeauthState) (Destination Attacker : String) (CurrentTime : ℚ) :
    List (ℚ × String) :=
  (((alistGet st.DeauthRecords Destination).getD []) ++ [(CurrentTime, Attacker)]).filter
    (fun TA => CurrentTime - TA.1 ≤ TimeWindow)

/-- The update of `MaxDeauthCounts[Destination]`: assigned when the key is
absent or the new count is larger. -/
def newMaxCount (st : DeauthState) (Destination : String) (Count : Nat) : Nat :=
  match alistGet st.MaxDeauthCounts Destination with
  | none => Count
  | some M => if M < Count then Count else M

/-- `Counter(AttackerList).most_common(1)`: the first-encountered address
with the maximal number of occurrences (CPython's `most_common` is stable,
so ties are broken by first insertion into the counter, which is first
occurrence in the list). -/
def MostCommon1 (l : List String) : Option String :=
  (l.foldl (fun acc a => listInsert acc a) []).foldl
    (fun best a =>
      match best with
      | none => some a
      | some b =>
        if (l.filter (fun x => x = b)).length < (l.filter (fun x => x = a)).length then
          some a
        else some b)
    none

/-- The body of `DetectDeauth` after the blocked-attacker check: append the
record, prune the window, update the maximum, and either publish an alert
(at most once per second per victim) or clear the stored alert time. -/
def DeauthStep (st : DeauthState) (Destination Attacker : String) (CurrentTime : ℚ) :
    DeauthState × Option DeauthAlert :=
  let Pruned := prunedWindow st Destination Attacker CurrentTime
  let Count := Pruned.length
  let NewMax := newMaxCount st Destination Count
  let Recs := alistSet st.DeauthRecords Destination Pruned
  let Maxes := alistSet st.MaxDeauthCounts Destination NewMax
  if Threshold ≤ Count then
    let AttackerMAC := (MostCommon1 (Pruned.map Prod.snd)).getD "Unknown"
    match alistGet st.LastAlertTime Destination with
    | none =>
      (⟨Recs, Maxes, alistSet st.LastAlertTime Destination CurrentTime⟩,
        some ⟨Destination, Count, NewMax, AttackerMAC⟩)
    | some TL =>
      if 1 ≤ CurrentTime - TL then
        (⟨Recs, Maxes, alistSet st.LastAlertTime Destination CurrentTime⟩,
          some ⟨Destination, Count, NewMax, AttackerMAC⟩)
      else (⟨Recs, Maxes, st.LastAlertTime⟩, none)
  else (⟨Recs, Maxes, alistErase st.LastAlertTime Destination⟩, none)

/-- `DetectDeauth` from DeauthDetection.py, for a frame that has the
`Dot11Deauth` layer.  `blocked` is the `BLOCKED_BSSIDS` dictionary imported
from MQTTHelper.py: a frame whose attacker was blocked less than 30 seconds
ago is ignored entirely. -/
def DetectDeauth (blocked : List (String × ℚ)) (st : DeauthState)
    (Destination Attacker : String) (CurrentTime : ℚ) : DeauthState × Option DeauthAlert :=
  match alistGet blocked Attacker with
  | some TB =>
    if CurrentTime - TB < 30 then (st, none)
    else DeauthStep st Destination Attacker CurrentTime
  | none => DeauthStep st Destination Attacker CurrentTime

/-- Feeding a sequence of deauth frames `(Destination, Attacker, CurrentTime)`
through `DetectDeauth`, collecting the published alerts in order. -/
def runDeauth (blocked : List (String × ℚ)) (st : DeauthState) :
    List (String × String × ℚ) → DeauthState × List DeauthAlert
  | [] => (st, [])
  | F :: Fs =>
    let R := DetectDeauth blocked st F.1 F.2.1 F.2.2
    let Rest := runDeauth blocked R.1 Fs
    (Rest.1, R.2.toList ++ Rest.2)

/-! ### RogueAPDetection.py -/

/-- `NormaliseSSID` from RogueAPDetection.py: replace the mojibake sequence
for a curly apostrophe (the three characters U+00E2 U+20AC U+2122, written
escaped) with a straight apostrophe (U+0027), remove null characters, and
strip surrounding whitespace. -/
def NormaliseSSID (SSID : String) : String :=
  pyStrip (pyReplace (pyReplace SSID "â€™" "\x27") "\x00" "")

/-- `GetPrefix` from RogueAPDetection.py: the first three colon-separated
octets of the BSSID, lower-cased; a string with fewer than three parts is
returned whole, lower-cased. -/
def GetPrefix (BSSID : String) : String :=
  let parts := splitColon BSSID.data
  if 3 ≤ parts.length then pyLower (String.mk (joinColon (parts.take 3)))
  else pyLower BSSID

/-- A `rogue_ap` alert: either personal (carrying the detected BSSID and the
allowed full addresses) or public (carrying the detected BSSID, the detected
3-octet prefix, and the allowed prefixes). -/
inductive RogueAlert where
  | personalAlert (ssid bssid : String) (expected : List String)
  | publicAlert (ssid bssid detectedPre : String) (expectedPres : List String)
  deriving DecidableEq, Repr

/-- The module-level mutable state of RogueAPDetection.py: the two trust
dictionaries, the set of already-alerted (SSID, BSSID) pairs, and the set of
unrecognised SSIDs. -/
structure RogueState where
  PersonalTrusted : List (String × List String)
  PublicTrusted : List (String × List String)
  AlertedRogues : List (String × String)
  UnrecognisedSSIDs : List String
  deriving DecidableEq, Repr

/-- The empty module state at process start. -/
def initRogueState : RogueState := ⟨[], [], [], []⟩

/-- `DetectRogue` from RogueAPDetection.py, for a frame that has the
`Dot11Beacon` layer, given the decoded SSID bytes and the frame's `addr2`. -/
def DetectRogue (st : RogueState) (SSIDRaw BSSIDRaw : String) :
    RogueState × Option RogueAlert :=
  let SSID := NormaliseSSID SSIDRaw
  let BSSID := pyLower BSSIDRaw
  match alistGet st.PersonalTrusted SSID with
  | some AllowedBSSIDs =>
    if BSSID ∉ AllowedBSSIDs then
      if (SSID, BSSID) ∉ st.AlertedRogues then
        ({ st with AlertedRogues := st.AlertedRogues ++ [(SSID, BSSID)] },
          some (.personalAlert SSID BSSID AllowedBSSIDs))
      else (st, none)
    else (st, none)
  | none =>
    match alistGet st.PublicTrusted SSID with
    | some AllowedPres =>
      if GetPrefix BSSID ∉ AllowedPres then
        if (SSID, BSSID) ∉ st.AlertedRogues then
          ({ st with AlertedRogues := st.AlertedRogues ++ [(SSID, BSSID)] },
            some (.publicAlert SSID BSSID (GetPrefix BSSID) AllowedPres))
        else (st, none)
      else (st, none)
    | none =>
      let CleanSSID := NormaliseSSID SSID
      if CleanSSID ≠ "" then
        ({ st with UnrecognisedSSIDs := listInsert st.UnrecognisedSSIDs CleanSSID }, none)
      else (st, none)

/-- Feeding a sequence of beacon frames `(SSIDRaw, BSSIDRaw)` through
`DetectRogue`, collecting the published alerts in order. -/
def runRogue (st : RogueState) : List (String × String) → RogueState × List RogueAlert
  | [] => (st, [])
  | B :: Bs =>
    let R := DetectRogue st B.1 B.2
    let Rest := runRogue R.1 Bs
    (Rest.1, R.2.toList ++ Rest.2)

/-- The batch `unrecognised_aps` alert. -/
structure UnrecAlert where
  ssids : List String
  deriving DecidableEq, Repr

/-- The end of `StartSniffing` in RogueAPDetection.py: once sniffing stops,
publish one `unrecognised_aps` alert if `UnrecognisedSSIDs` is non-empty.
Python's `list(UnrecognisedSSIDs)` enumerates the set in an arbitrary,
implementation-defined order with no sorting applied; the model emits the
insertion-ordered list it maintains for the set. -/
def FlushUnrecognised (st : RogueState) : Option UnrecAlert :=
  if st.UnrecognisedSSIDs ≠ [] then some ⟨st.UnrecognisedSSIDs⟩ else none

/-- A decoded `commands/update_trusted` payload: each of the two dictionary
fields may be absent. -/
structure TrustUpdate where
  personalField : Option (List (String × List String))
  publicField : Option (List (String × List String))
  deriving DecidableEq, Repr

/-- `UpdateTrustedCallback` from RogueAPDetection.py: if the `personal` key is
present, wholly replace `PersonalTrusted` with the supplied mapping with
every address lower-cased; if the `public` key is present, wholly replace
`PublicTrusted` with the supplied mapping with every address reduced to its
prefix by `GetPrefix`. -/
def UpdateTrustedCallback (st : RogueState) (Data : TrustUpdate) : RogueState :=
  let st1 :=
    match Data.personalField with
    | some M => { st with PersonalTrusted := M.map (fun KV => (KV.1, KV.2.map pyLower)) }
    | none => st
  match Data.publicField with
  | some M => { st1 with PublicTrusted := M.map (fun KV => (KV.1, KV.2.map GetPrefix)) }
  | none => st1

/-! ### MQTTHelper.py -/

/-- `BlockRogueAP` from MQTTHelper.py.  The scapy `sendp` injection primitive
is an external collaborator; its outcome is passed in as `SendResult`.  A
Python exception raised by `sendp` propagates to the caller before the
`BLOCKED_BSSIDS[RogueBSSID] = time.time()` assignment runs, which is the
`Except.error` case; on success the block record is set to the current time. -/
def BlockRogueAP (SendResult : Except String Unit) (Blocked : List (String × ℚ))
    (RogueBSSID : String) (Now : ℚ) : Except String (List (String × ℚ)) :=
  match SendResult with
  | .error E => .error E
  | .ok _ => .ok (alistSet Blocked RogueBSSID Now)


/-! ### Association list lemmas -/

theorem alistGet_set_self {α : Type} (l : List (String × α)) (k : String) (v : α) :
    alistGet (alistSet l k v) k = some v := by
  induction l with
  | nil => simp [alistSet, alistGet]
  | cons p rest ih =>
    obtain ⟨k0, v0⟩ := p
    by_cases h : k0 = k
    · simp [alistSet, h, alistGet]
    · simp [alistSet, h, alistGet, ih]

theorem alistGet_set_ne {α : Type} (l : List (String × α)) (k k' : String) (v : α)
    (h : k ≠ k') : alistGet (alistSet l k v) k' = alistGet l k' := by
  induction l with
  | nil => simp [alistSet, alistGet, h]
  | cons p rest ih =>
    obtain ⟨k0, v0⟩ := p
    by_cases h0 : k0 = k
    · subst h0
      simp [alistSet, alistGet, h]
    · simp [alistSet, h0, alistGet, ih]

/-! ### Claim theorems -/

/-- C7: a trust-update command containing only the `public` field leaves the
personal mapping exactly as it was (and leaves the alert/unrecognised state
untouched) and wholly replaces the public mapping with the supplied one, each
address reduced to its lower-cased 3-octet prefix by `GetPrefix` at ingestion
time; symmetrically, a command with only `personal` leaves the public mapping
untouched and replaces the personal mapping with the lower-cased addresses. -/
theorem C7_partial_trust_update (st : RogueState) (M : List (String × List String)) :
    ((UpdateTrustedCallback st ⟨none, some M⟩).PersonalTrusted = st.PersonalTrusted ∧
      (UpdateTrustedCallback st ⟨none, some M⟩).PublicTrusted
        = M.map (fun KV => (KV.1, KV.2.map GetPrefix)) ∧
      (UpdateTrustedCallback st ⟨none, some M⟩).AlertedRogues = st.AlertedRogues ∧
      (UpdateTrustedCallback st ⟨none, some M⟩).UnrecognisedSSIDs = st.UnrecognisedSSIDs) ∧
    ((UpdateTrustedCallback st ⟨some M, none⟩).PublicTrusted = st.PublicTrusted ∧
      (UpdateTrustedCallback st ⟨some M, none⟩).PersonalTrusted
        = M.map (fun KV => (KV.1, KV.2.map pyLower))) :=
  ⟨⟨rfl, rfl, rfl, rfl⟩, rfl, rfl⟩

/-- C8: replaying the same trust-update command twice yields a Trust Store
state identical to applying it once. -/
theorem C8_trust_update_idempotent (st : RogueState) (U : TrustUpdate) :
    UpdateTrustedCallback (UpdateTrustedCallback st U) U = UpdateTrustedCallback st U := by
  obtain ⟨P, Q⟩ := U
  cases P <;> cases Q <;> rfl

/-- C9: if the injection primitive succeeds, `BlockRogueAP` records the
current time for the target address in the block dictionary; if it fails,
the failure is returned to the caller and the block dictionary is left
completely unchanged. -/
theorem C9_block_no_partial_state (Blocked : List (String × ℚ)) (Target : String) (Now : ℚ) :
    (BlockRogueAP (.ok ()) Blocked Target Now = .ok (alistSet Blocked Target Now) ∧
      alistGet (alistSet Blocked Target Now) Target = some Now) ∧
    (∀ E : String, BlockRogueAP (.error E) Blocked Target Now = .error E) :=
  ⟨⟨rfl, alistGet_set_self Blocked Target Now⟩, fun _ => rfl⟩


/-- C4: for a beacon whose normalised SSID is not a key of the personal trust
mapping but is a key of the public trust mapping: if the lower-cased 3-octet
prefix of the detected BSSID equals one of the allowed prefixes, no alert is
emitted and the state is unchanged; otherwise, for a pair not yet alerted, a
public `rogue_ap` alert is emitted carrying the detected prefix and the
allowed prefix list. -/
theorem C4_public_prefix_classification (st : RogueState) (SSIDRaw BSSIDRaw : String)
    (Pres : List String)
    (hPers : alistGet st.PersonalTrusted (NormaliseSSID SSIDRaw) = none)
    (hPub : alistGet st.PublicTrusted (NormaliseSSID SSIDRaw) = some Pres) :
    (GetPrefix (pyLower BSSIDRaw) ∈ Pres → DetectRogue st SSIDRaw BSSIDRaw = (st, none)) ∧
    (GetPrefix (pyLower BSSIDRaw) ∉ Pres →
      (NormaliseSSID SSIDRaw, pyLower BSSIDRaw) ∉ st.AlertedRogues →
      DetectRogue st SSIDRaw BSSIDRaw =
        ({ st with AlertedRogues :=
            st.AlertedRogues ++ [(NormaliseSSID SSIDRaw, pyLower BSSIDRaw)] },
          some (.publicAlert (NormaliseSSID SSIDRaw) (pyLower BSSIDRaw)
            (GetPrefix (pyLower BSSIDRaw)) Pres))) := by
  constructor
  · intro hin
    simp [DetectRogue, hPers, hPub, hin]
  · intro hout hal
    simp [DetectRogue, hPers, hPub, hout, hal]

/-- The Trust Store state of the spec's CafeWifi example: SSID `CafeWifi` in
the public mapping with allowed prefix `11:22:33`. -/
def cafeState : RogueState := ⟨[], [("CafeWifi", ["11:22:33"])], [], []⟩

/-- Witness for C4 at the spec's concrete example. -/
theorem C4_witness :
    DetectRogue cafeState "CafeWifi" "11:22:33:99:99:99" = (cafeState, none) ∧
    DetectRogue cafeState "CafeWifi" "44:55:66:99:99:99" =
      ({ cafeState with AlertedRogues := [("CafeWifi", "44:55:66:99:99:99")] },
        some (.publicAlert "CafeWifi" "44:55:66:99:99:99" "44:55:66" ["11:22:33"])) := by
  have h1 := (C4_public_prefix_classification cafeState "CafeWifi" "11:22:33:99:99:99"
    ["11:22:33"] (by decide) (by decide)).1 (by decide)
  have h2 := (C4_public_prefix_classification cafeState "CafeWifi" "44:55:66:99:99:99"
    ["11:22:33"] (by decide) (by decide)).2 (by decide) (by decide)
  refine ⟨h1, ?_⟩
  rw [h2]
  decide

/-- One `DetectRogue` call never puts the empty SSID into the unrecognised
set: the guard `if CleanSSID` in the source skips falsy (empty) strings. -/
theorem DetectRogue_no_empty_unrec (st : RogueState) (S B : String)
    (h : "" ∉ st.UnrecognisedSSIDs) :
    "" ∉ (DetectRogue st S B).1.UnrecognisedSSIDs := by
  cases hp : alistGet st.PersonalTrusted (NormaliseSSID S) with
  | some L =>
    simp only [DetectRogue, hp]
    split_ifs <;> simpa using h
  | none =>
    cases hq : alistGet st.PublicTrusted (NormaliseSSID S) with
    | some L =>
      simp only [DetectRogue, hp, hq]
      split_ifs <;> simpa using h
    | none =>
      by_cases hc : NormaliseSSID (NormaliseSSID S) = ""
      · simp [DetectRogue, hp, hq, hc, h]
      · simp only [DetectRogue, hp, hq, listInsert]
        split_ifs with h1 h2 <;> simp_all
        exact fun he => h1 he.symm

/-- C10: over any sequence of observed beacons, the empty string never enters
the unrecognised-SSID set, because an SSID matching neither trust mapping is
added only when its normalised form is non-empty. -/
theorem C10_no_empty_ssid (Beacons : List (String × String)) (st : RogueState)
    (h : "" ∉ st.UnrecognisedSSIDs) :
    "" ∉ (runRogue st Beacons).1.UnrecognisedSSIDs := by
  induction Beacons generalizing st with
  | nil => simpa [runRogue] using h
  | cons B Bs ih =>
    simp only [runRogue]
    exact ih _ (DetectRogue_no_empty_unrec st B.1 B.2 h)

/-- Witness for C10: a whitespace-only SSID (normalising to the empty
string) observed from the fresh state never reaches the unrecognised set. -/
theorem C10_witness :
    "" ∉ (runRogue initRogueState
      [("   ", "aa:bb:cc:dd:ee:ff"), ("Unknown1", "aa:bb:cc:dd:ee:ff")]).1.UnrecognisedSSIDs :=
  C10_no_empty_ssid _ initRogueState (by decide)


/-- The normalised (ssid, bssid) pair a rogue alert is about. -/
def alertSSIDBSSID : RogueAlert → String × String
  | .personalAlert s b _ => (s, b)
  | .publicAlert s b _ _ => (s, b)

/-- A `DetectRogue` call never removes a pair from `AlertedRogues`. -/
theorem DetectRogue_alerted_mono (st : RogueState) (S B : String) (P : String × String)
    (h : P ∈ st.AlertedRogues) : P ∈ (DetectRogue st S B).1.AlertedRogues := by
  cases hp : alistGet st.PersonalTrusted (NormaliseSSID S) with
  | some L =>
    simp only [DetectRogue, hp]
    split_ifs <;> simp [h]
  | none =>
    cases hq : alistGet st.PublicTrusted (NormaliseSSID S) with
    | some L =>
      simp only [DetectRogue, hp, hq]
      split_ifs <;> simp [h]
    | none =>
      simp only [DetectRogue, hp, hq]
      split_ifs <;> simp [h]

/-- When `DetectRogue` publishes an alert, the alert's pair was not yet in
`AlertedRogues`, and it is appended to `AlertedRogues` by the call. -/
theorem DetectRogue_alert_new (st : RogueState) (S B : String) (a : RogueAlert)
    (h : (DetectRogue st S B).2 = some a) :
    alertSSIDBSSID a ∉ st.AlertedRogues ∧
    (DetectRogue st S B).1.AlertedRogues = st.AlertedRogues ++ [alertSSIDBSSID a] := by
  cases hp : alistGet st.PersonalTrusted (NormaliseSSID S) with
  | some L =>
    simp only [DetectRogue, hp] at h ⊢
    split_ifs at h ⊢ with h1 h2 <;>
      first
        | (obtain ⟨rfl⟩ := Option.some_injective _ h
           exact ⟨h2, by simp [alertSSIDBSSID]⟩)
        | exact absurd h (by simp)
  | none =>
    cases hq : alistGet st.PublicTrusted (NormaliseSSID S) with
    | some L =>
      simp only [DetectRogue, hp, hq] at h ⊢
      split_ifs at h ⊢ with h1 h2 <;>
        first
          | (obtain ⟨rfl⟩ := Option.some_injective _ h
             exact ⟨h2, by simp [alertSSIDBSSID]⟩)
          | exact absurd h (by simp)
    | none =>
      simp only [DetectRogue, hp, hq] at h
      split_ifs at h <;> simp at h

/-- When `DetectRogue` publishes no alert, `AlertedRogues` is unchanged. -/
theorem DetectRogue_none_alerted (st : RogueState) (S B : String)
    (h : (DetectRogue st S B).2 = none) :
    (DetectRogue st S B).1.AlertedRogues = st.AlertedRogues := by
  cases hp : alistGet st.PersonalTrusted (NormaliseSSID S) with
  | some L =>
    simp only [DetectRogue, hp] at h ⊢
    split_ifs at h ⊢ <;> simp_all
  | none =>
    cases hq : alistGet st.PublicTrusted (NormaliseSSID S) with
    | some L =>
      simp only [DetectRogue, hp, hq] at h ⊢
      split_ifs at h ⊢ <;> simp_all
    | none =>
      simp only [DetectRogue, hp, hq] at h ⊢
      split_ifs <;> simp

/-- Once a pair is in `AlertedRogues`, no later beacon produces an alert for
that pair. -/
theorem runRogue_no_alert_of_alerted (Beacons : List (String × String)) (st : RogueState)
    (P : String × String) (h : P ∈ st.AlertedRogues) :
    ((runRogue st Beacons).2.filter (fun a => alertSSIDBSSID a = P)).length = 0 := by
  induction Beacons generalizing st with
  | nil => simp [runRogue]
  | cons B Bs ih =>
    simp only [runRogue, List.filter_append, List.length_append]
    cases ha : (DetectRogue st B.1 B.2).2 with
    | none =>
      have := ih _ (DetectRogue_alerted_mono st B.1 B.2 P h)
      simp [ha, this]
    | some a =>
      have hnew := DetectRogue_alert_new st B.1 B.2 a ha
      have hne : alertSSIDBSSID a ≠ P := fun he => hnew.1 (he ▸ h)
      have := ih _ (DetectRogue_alerted_mono st B.1 B.2 P h)
      simp [ha, hne, this]

/-- C5: over any sequence of observed beacons starting from a state in which
the pair (ssid, bssid) has not yet been alerted, at most one rogue alert is
ever emitted for that pair; after the first, later observations of the same
pair are absorbed. -/
theorem C5_rogue_alert_dedup (Beacons : List (String × String)) (st : RogueState)
    (P : String × String) (h : P ∉ st.AlertedRogues) :
    ((runRogue st Beacons).2.filter (fun a => alertSSIDBSSID a = P)).length ≤ 1 := by
  induction Beacons generalizing st with
  | nil => simp [runRogue]
  | cons B Bs ih =>
    simp only [runRogue, List.filter_append, List.length_append]
    cases ha : (DetectRogue st B.1 B.2).2 with
    | none =>
      have hal : P ∉ (DetectRogue st B.1 B.2).1.AlertedRogues := by
        rw [DetectRogue_none_alerted st B.1 B.2 ha]; exact h
      simpa [ha] using ih _ hal
    | some a =>
      have hnew := DetectRogue_alert_new st B.1 B.2 a ha
      by_cases hpa : alertSSIDBSSID a = P
      · have hz := runRogue_no_alert_of_alerted Bs (DetectRogue st B.1 B.2).1 P
          (by rw [hnew.2, hpa]; simp)
        simp [ha, hpa, hz]
      · have hal : P ∉ (DetectRogue st B.1 B.2).1.AlertedRogues := by
          rw [hnew.2]
          simp only [List.mem_append, List.mem_singleton]
          rintro (hc | hc)
          · exact h hc
          · exact hpa hc.symm
        simpa [ha, hpa] using ih _ hal

/-- The Trust Store state of the spec's HomeNet example: SSID `HomeNet` in
the personal mapping with allowed address `aa:bb:cc:dd:ee:ff`. -/
def homeState : RogueState := ⟨[("HomeNet", ["aa:bb:cc:dd:ee:ff"])], [], [], []⟩

/-- Witness for C5 at the spec's concrete example: two identical rogue
HomeNet beacons produce at most one alert for the pair. -/
theorem C5_witness :
    ("HomeNet", "aa:bb:cc:dd:ee:00") ∉ homeState.AlertedRogues ∧
    ((runRogue homeState [("HomeNet", "aa:bb:cc:dd:ee:00"), ("HomeNet", "aa:bb:cc:dd:ee:00")]).2.filter
      (fun a => alertSSIDBSSID a = ("HomeNet", "aa:bb:cc:dd:ee:00"))).length ≤ 1 :=
  ⟨by decide,
    C5_rogue_alert_dedup [("HomeNet", "aa:bb:cc:dd:ee:00"), ("HomeNet", "aa:bb:cc:dd:ee:00")]
      homeState ("HomeNet", "aa:bb:cc:dd:ee:00") (by decide)⟩


/-- `DetectRogue` never modifies the trust dictionaries. -/
theorem DetectRogue_trust_const (st : RogueState) (S B : String) :
    (DetectRogue st S B).1.PersonalTrusted = st.PersonalTrusted ∧
    (DetectRogue st S B).1.PublicTrusted = st.PublicTrusted := by
  cases hp : alistGet st.PersonalTrusted (NormaliseSSID S) with
  | some L =>
    simp only [DetectRogue, hp]
    split_ifs <;> simp
  | none =>
    cases hq : alistGet st.PublicTrusted (NormaliseSSID S) with
    | some L =>
      simp only [DetectRogue, hp, hq]
      split_ifs <;> simp
    | none =>
      simp only [DetectRogue, hp, hq]
      split_ifs <;> simp

/-- Membership in the unrecognised set after one `DetectRogue` call:
the set gains exactly the (re-)normalised SSID of a beacon that matched
neither trust mapping and normalises to a non-empty string. -/
theorem DetectRogue_unrec_mem (st : RogueState) (S B : String) (s : String) :
    s ∈ (DetectRogue st S B).1.UnrecognisedSSIDs ↔
      s ∈ st.UnrecognisedSSIDs ∨
        (alistGet st.PersonalTrusted (NormaliseSSID S) = none ∧
         alistGet st.PublicTrusted (NormaliseSSID S) = none ∧
         NormaliseSSID (NormaliseSSID S) = s ∧ s ≠ "") := by
  cases hp : alistGet st.PersonalTrusted (NormaliseSSID S) with
  | some L =>
    simp only [DetectRogue, hp]
    split_ifs <;> simp
  | none =>
    cases hq : alistGet st.PublicTrusted (NormaliseSSID S) with
    | some L =>
      simp only [DetectRogue, hp, hq]
      split_ifs <;> simp
    | none =>
      by_cases hc : NormaliseSSID (NormaliseSSID S) = ""
      · simp only [DetectRogue, hp, hq]
        rw [if_neg (not_not_intro hc)]
        constructor
        · intro hmem
          exact Or.inl hmem
        · rintro (hmem | ⟨-, -, rfl, hne⟩)
          · exact hmem
          · exact absurd hc hne
      · simp only [DetectRogue, hp, hq]
        rw [if_pos hc]
        simp only [listInsert]
        split_ifs with hin
        · constructor
          · intro hmem
            exact Or.inl hmem
          · rintro (hmem | ⟨-, -, rfl, -⟩)
            · exact hmem
            · exact hin
        · simp only [List.mem_append, List.mem_singleton]
          constructor
          · rintro (hmem | rfl)
            · exact Or.inl hmem
            · exact Or.inr ⟨trivial, trivial, rfl, hc⟩
          · rintro (hmem | ⟨-, -, rfl, -⟩)
            · exact Or.inl hmem
            · exact Or.inr rfl

/-- `DetectRogue` keeps the unrecognised set duplicate-free. -/
theorem DetectRogue_unrec_nodup (st : RogueState) (S B : String)
    (h : st.UnrecognisedSSIDs.Nodup) :
    (DetectRogue st S B).1.UnrecognisedSSIDs.Nodup := by
  cases hp : alistGet st.PersonalTrusted (NormaliseSSID S) with
  | some L =>
    simp only [DetectRogue, hp]
    split_ifs <;> simpa using h
  | none =>
    cases hq : alistGet st.PublicTrusted (NormaliseSSID S) with
    | some L =>
      simp only [DetectRogue, hp, hq]
      split_ifs <;> simpa using h
    | none =>
      simp only [DetectRogue, hp, hq, listInsert]
      split_ifs with h1 h2
      · simpa using h
      · refine List.Nodup.append h (List.nodup_singleton _) ?_
        intro a ha hb
        rw [List.mem_singleton] at hb
        subst hb
        exact h2 ha
      · simpa using h

/-- A beacon in `Beacons` whose (re-)normalised SSID is `s`, matching neither
trust mapping of `st` and normalising to a non-empty string. -/
def UnrecObserved (st : RogueState) (Beacons : List (String × String)) (s : String) : Prop :=
  ∃ B ∈ Beacons, alistGet st.PersonalTrusted (NormaliseSSID B.1) = none ∧
    alistGet st.PublicTrusted (NormaliseSSID B.1) = none ∧
    NormaliseSSID (NormaliseSSID B.1) = s ∧ s ≠ ""

/-- Membership in the unrecognised set after a run of beacons. -/
theorem runRogue_unrec_mem (Beacons : List (String × String)) (st : RogueState) (s : String) :
    s ∈ (runRogue st Beacons).1.UnrecognisedSSIDs ↔
      s ∈ st.UnrecognisedSSIDs ∨ UnrecObserved st Beacons s := by
  induction Beacons generalizing st with
  | nil => simp [runRogue, UnrecObserved]
  | cons B Bs ih =>
    simp only [runRogue]
    rw [ih, DetectRogue_unrec_mem]
    have ht := DetectRogue_trust_const st B.1 B.2
    constructor
    · rintro ((hmem | hB) | hobs)
      · exact Or.inl hmem
      · exact Or.inr ⟨B, by simp, hB⟩
      · obtain ⟨B0, hB0, hc⟩ := hobs
        rw [ht.1, ht.2] at hc
        exact Or.inr ⟨B0, by simp [hB0], hc⟩
    · rintro (hmem | ⟨B0, hB0, hc⟩)
      · exact Or.inl (Or.inl hmem)
      · rcases List.mem_cons.mp hB0 with rfl | hB0
        · exact Or.inl (Or.inr hc)
        · exact Or.inr ⟨B0, hB0, by rw [ht.1, ht.2]; exact hc⟩

/-- The unrecognised set stays duplicate-free over a run of beacons. -/
theorem runRogue_unrec_nodup (Beacons : List (String × String)) (st : RogueState)
    (h : st.UnrecognisedSSIDs.Nodup) :
    (runRogue st Beacons).1.UnrecognisedSSIDs.Nodup := by
  induction Beacons generalizing st with
  | nil => simpa [runRogue] using h
  | cons B Bs ih =>
    simp only [runRogue]
    exact ih _ (DetectRogue_unrec_nodup st B.1 B.2 h)

/-- C6 (amended): when ingestion stops after any run of beacons (from a state
whose unrecognised set is duplicate-free, as at process start), the shutdown
flush emits no alert when the unrecognised set is empty, and exactly one
`unrecognised_aps` alert otherwise, whose `ssids` field lists — once each,
in the set's arbitrary (unsorted) enumeration order — exactly the SSIDs
whose beacons matched neither trust mapping. -/
theorem C6_unrec_flush (Beacons : List (String × String)) (st : RogueState)
    (hnd : st.UnrecognisedSSIDs.Nodup) :
    ((runRogue st Beacons).1.UnrecognisedSSIDs = [] →
      FlushUnrecognised (runRogue st Beacons).1 = none) ∧
    ((runRogue st Beacons).1.UnrecognisedSSIDs ≠ [] →
      FlushUnrecognised (runRogue st Beacons).1 =
        some ⟨(runRogue st Beacons).1.UnrecognisedSSIDs⟩) ∧
    (runRogue st Beacons).1.UnrecognisedSSIDs.Nodup ∧
    (∀ s, s ∈ (runRogue st Beacons).1.UnrecognisedSSIDs ↔
      s ∈ st.UnrecognisedSSIDs ∨ UnrecObserved st Beacons s) := by
  refine ⟨fun he => ?_, fun hne => ?_, runRogue_unrec_nodup Beacons st hnd,
    fun s => runRogue_unrec_mem Beacons st s⟩
  · simp [FlushUnrecognised, he]
  · simp [FlushUnrecognised, hne]

/-- Witness for C6 (amended) at the spec's concrete example of two
never-classified SSIDs. -/
theorem C6_witness :
    initRogueState.UnrecognisedSSIDs.Nodup ∧
    ((runRogue initRogueState
        [("Unknown1", "aa:bb:cc:dd:ee:ff"), ("Unknown2", "aa:bb:cc:dd:ee:ff")]).1.UnrecognisedSSIDs ≠ [] →
      FlushUnrecognised (runRogue initRogueState
        [("Unknown1", "aa:bb:cc:dd:ee:ff"), ("Unknown2", "aa:bb:cc:dd:ee:ff")]).1 =
        some ⟨(runRogue initRogueState
          [("Unknown1", "aa:bb:cc:dd:ee:ff"), ("Unknown2", "aa:bb:cc:dd:ee:ff")]).1.UnrecognisedSSIDs⟩) :=
  ⟨by decide,
    (C6_unrec_flush [("Unknown1", "aa:bb:cc:dd:ee:ff"), ("Unknown2", "aa:bb:cc:dd:ee:ff")]
      initRogueState (by decide)).2.1⟩

/-- C6 counterexample: the claim's "sorted list" fails on the code.  From the
fresh state, observing the never-classified SSIDs in the order `Unknown2`,
`Unknown1` makes the shutdown flush emit the set's enumeration order
`[Unknown2, Unknown1]`, which is not sorted (the source builds
`list(UnrecognisedSSIDs)` without sorting). -/
theorem C6_counterexample :
    FlushUnrecognised (runRogue initRogueState
        [("Unknown2", "aa:bb:cc:dd:ee:ff"), ("Unknown1", "aa:bb:cc:dd:ee:ff")]).1 =
      some ⟨["Unknown2", "Unknown1"]⟩ ∧
    isSortedStrings ["Unknown2", "Unknown1"] = false := by
  decide


/-- In every branch of `DeauthStep`, the destination's record list is set to
the pruned window. -/
theorem DeauthStep_records (st : DeauthState) (D A : String) (t : ℚ) :
    (DeauthStep st D A t).1.DeauthRecords =
      alistSet st.DeauthRecords D (prunedWindow st D A t) := by
  simp only [DeauthStep]
  split
  · split
    · rfl
    · split <;> rfl
  · rfl

/-- Under an inactive (or absent) block record for the attacker,
`DetectDeauth` runs the processing body. -/
theorem DetectDeauth_unblocked (blocked : List (String × ℚ)) (st : DeauthState)
    (D A : String) (t : ℚ)
    (hb : ∀ TB, alistGet blocked A = some TB → 30 ≤ t - TB) :
    DetectDeauth blocked st D A t = DeauthStep st D A t := by
  cases hTB : alistGet blocked A with
  | none => simp [DetectDeauth, hTB]
  | some TB => simp [DetectDeauth, hTB, not_lt.mpr (hb TB hTB)]

/-- C3: for an attacker with a block record at time `TB`, a frame at a time
in `[TB, TB+30)` is ignored entirely — the whole detector state is unchanged
and no alert is emitted — while a frame at or after `TB+30` is processed
exactly as if no block record existed. -/
theorem C3_block_cooldown (blocked : List (String × ℚ)) (st : DeauthState)
    (D A : String) (t TB : ℚ) (hTB : alistGet blocked A = some TB) :
    (TB ≤ t → t - TB < 30 → DetectDeauth blocked st D A t = (st, none)) ∧
    (30 ≤ t - TB → DetectDeauth blocked st D A t = DetectDeauth [] st D A t) := by
  constructor
  · intro _ hlt
    simp [DetectDeauth, hTB, hlt]
  · intro hge
    rw [DetectDeauth_unblocked blocked st D A t
      (fun TB0 h0 => by rw [hTB] at h0; cases h0; exact hge)]
    rw [DetectDeauth_unblocked [] st D A t (fun TB0 h0 => by simp [alistGet] at h0)]

/-- Witness for C3: an attacker blocked at time 100 is ignored at time 110
and processed normally at time 200. -/
theorem C3_witness :
    (DetectDeauth [("a", (100:ℚ))] initDeauthState "d" "a" 110 = (initDeauthState, none)) ∧
    DetectDeauth [("a", (100:ℚ))] initDeauthState "d" "a" 200 =
      DetectDeauth [] initDeauthState "d" "a" 200 := by
  refine ⟨(C3_block_cooldown [("a", (100:ℚ))] initDeauthState "d" "a" 110 100 ?_).1
      (by norm_num) (by norm_num),
    (C3_block_cooldown [("a", (100:ℚ))] initDeauthState "d" "a" 200 100 ?_).2 (by norm_num)⟩ <;>
    simp [alistGet]

/-- C2 (amended): after every `DetectDeauth` call that processes its frame
(the attacker has no active block cooldown), the observed destination's
window is exactly the pruned window: every entry in it has age at most
`TimeWindow` relative to the frame's timestamp (inclusively), and every
previous entry that has not expired — including one with a timestamp beyond
the frame's, whose age is negative — is retained.  Windows of other
destinations are only pruned when their own frames arrive. -/
theorem C2_window_ages (blocked : List (String × ℚ)) (st : DeauthState)
    (D A : String) (t : ℚ)
    (hb : ∀ TB, alistGet blocked A = some TB → 30 ≤ t - TB) :
    alistGet (DetectDeauth blocked st D A t).1.DeauthRecords D =
        some (prunedWindow st D A t) ∧
    (∀ e ∈ prunedWindow st D A t, t - e.1 ≤ TimeWindow) ∧
    (∀ e ∈ (alistGet st.DeauthRecords D).getD [], t - e.1 ≤ TimeWindow →
      e ∈ prunedWindow st D A t) := by
  refine ⟨?_, ?_, ?_⟩
  · rw [DetectDeauth_unblocked blocked st D A t hb, DeauthStep_records,
      alistGet_set_self]
  · intro e he
    simp only [prunedWindow, List.mem_filter, decide_eq_true_eq] at he
    exact he.2
  · intro e he hage
    simp only [prunedWindow, List.mem_filter, decide_eq_true_eq]
    exact ⟨List.mem_append_left _ he, hage⟩

/-- A detector state holding, for destination `d`, one window entry whose
timestamp (100) lies beyond the next frame's timestamp (0). -/
def stFuture : DeauthState := ⟨[("d", [((100:ℚ), "x")])], [("d", 1)], []⟩

/-- Witness for C2 at a frame whose timestamp went backwards: the
future-timestamped entry has negative age and is retained, not pruned. -/
theorem C2_witness :
    alistGet (DetectDeauth [] stFuture "d" "a" 0).1.DeauthRecords "d" =
        some (prunedWindow stFuture "d" "a" 0) ∧
    ((100:ℚ), "x") ∈ prunedWindow stFuture "d" "a" 0 := by
  have h := C2_window_ages [] stFuture "d" "a" 0 (by intro TB hTB; simp [alistGet] at hTB)
  refine ⟨h.1, h.2.2 ((100:ℚ), "x") ?_ ?_⟩
  · simp [stFuture, alistGet]
  · norm_num [TimeWindow]

/-- C2 counterexample: the claim quantifies over every destination, but the
code prunes lazily, only the observed frame's destination.  After a frame for
`d1` at time 0 and a frame for `d2` at time 10, destination `d1`'s window
still holds its entry of age 10 > 5 immediately after the second call. -/
theorem C2_counterexample :
    alistGet (runDeauth [] initDeauthState
        [("d1", "a", (0:ℚ)), ("d2", "a", (10:ℚ))]).1.DeauthRecords "d1" =
      some [((0:ℚ), "a")] ∧
    ¬ ((10:ℚ) - 0 ≤ TimeWindow) := by
  constructor
  · norm_num [runDeauth, DetectDeauth, DeauthStep, prunedWindow, newMaxCount,
      alistGet, alistSet, alistErase, initDeauthState, Threshold, TimeWindow,
      List.filter]
  · norm_num [TimeWindow]


/-- `listInsert` always makes its argument a member. -/
theorem mem_listInsert_self (l : List String) (s : String) : s ∈ listInsert l s := by
  unfold listInsert
  split_ifs with h
  · exact h
  · simp

/-- Inserting an element already present changes nothing. -/
theorem listInsert_of_mem {l : List String} {s : String} (h : s ∈ l) :
    listInsert l s = l := if_pos h

/-- `listInsert` is idempotent. -/
theorem listInsert_idem (l : List String) (s : String) :
    listInsert (listInsert l s) s = listInsert l s :=
  listInsert_of_mem (mem_listInsert_self l s)

/-- Folding `listInsert` over a constant list collects at most that constant. -/
theorem foldl_listInsert_const (A : String) :
    ∀ (l : List String) (acc : List String), (∀ x ∈ l, x = A) →
      l.foldl (fun acc a => listInsert acc a) acc =
        if l = [] then acc else listInsert acc A := by
  intro l
  induction l with
  | nil => intro acc _; rfl
  | cons x rest ih =>
    intro acc hall
    have hx : x = A := hall x (by simp)
    subst hx
    rw [List.foldl_cons, ih (listInsert acc x) (fun y hy => hall y (by simp [hy])),
      if_neg (List.cons_ne_nil x rest)]
    split_ifs with h
    · rfl
    · exact listInsert_idem acc x

/-- `Counter(...).most_common(1)` on a non-empty list of copies of `A` is `A`. -/
theorem MostCommon1_const (l : List String) (A : String) (hne : l ≠ [])
    (hall : ∀ x ∈ l, x = A) : MostCommon1 l = some A := by
  unfold MostCommon1
  rw [foldl_listInsert_const A l [] hall, if_neg hne]
  simp [listInsert]

/-- The pruned window, when the stored window is a run of entries from
attacker `A` none of which has expired. -/
theorem prunedWindow_mapped (st : DeauthState) (D A : String) (ts : List ℚ) (t : ℚ)
    (hrec : (alistGet st.DeauthRecords D).getD [] = ts.map (fun u => (u, A)))
    (hage : ∀ u ∈ ts, t - u ≤ TimeWindow) :
    prunedWindow st D A t = (ts ++ [t]).map (fun u => (u, A)) := by
  unfold prunedWindow
  rw [hrec, List.filter_eq_self.mpr, List.map_append]
  · rfl
  · intro e he
    rcases List.mem_append.mp he with hm | hm
    · obtain ⟨u, hu, rfl⟩ := List.mem_map.mp hm
      simpa using hage u hu
    · rw [List.mem_singleton] at hm
      subst hm
      norm_num [TimeWindow]

/-- The state after a sub-threshold run of frames `(D, A, u)`, `u ∈ ts`,
starting from the fresh state. -/
def subState (D A : String) (ts : List ℚ) : DeauthState :=
  ⟨[(D, ts.map (fun u => (u, A)))], [(D, ts.length)], []⟩

/-- The very first frame creates the destination's entries. -/
theorem DeauthStep_init (D A : String) (t : ℚ) :
    DeauthStep initDeauthState D A t = (subState D A [t], none) := by
  have hp : prunedWindow initDeauthState D A t = ([t] : List ℚ).map (fun u => (u, A)) := by
    rw [prunedWindow_mapped initDeauthState D A [] t (by simp [initDeauthState, alistGet])
      (by simp)]
    simp
  simp only [DeauthStep, hp]
  norm_num [Threshold, subState, newMaxCount, initDeauthState, alistGet, alistSet,
    alistErase]

/-- A frame appended to a sub-threshold window advances the run state and
emits nothing. -/
theorem DeauthStep_subState (D A : String) (ts : List ℚ) (t : ℚ)
    (hlen : ts.length + 1 < Threshold)
    (hage : ∀ u ∈ ts, t - u ≤ TimeWindow) :
    DeauthStep (subState D A ts) D A t = (subState D A (ts ++ [t]), none) := by
  have hp : prunedWindow (subState D A ts) D A t = (ts ++ [t]).map (fun u => (u, A)) :=
    prunedWindow_mapped _ D A ts t (by simp [subState, alistGet]) hage
  have hc : ¬ (Threshold ≤ ((ts ++ [t]).map (fun u => (u, A))).length) := by
    simp only [List.length_map, List.length_append, List.length_singleton]
    omega
  simp only [DeauthStep, hp, if_neg hc]
  have hval : alistGet (subState D A ts).MaxDeauthCounts D = some ts.length := by
    simp [subState, alistGet]
  have hm : newMaxCount (subState D A ts) D (((ts ++ [t]).map (fun u => (u, A))).length)
      = (ts ++ [t]).length := by
    unfold newMaxCount
    rw [hval]
    simp only [List.length_map, List.length_append, List.length_singleton]
    rw [if_pos (Nat.lt_succ_self _)]
  rw [hm]
  simp [subState, alistSet, alistErase]


/-- Running a sub-threshold batch of frames `(D, A, u)` advances `subState`
and emits nothing. -/
theorem runDeauth_subState (D A : String) :
    ∀ (pend ts : List ℚ) (rest : List (String × String × ℚ)),
      ts.length + pend.length < Threshold →
      (∀ u ∈ pend, ∀ v ∈ ts ++ pend, u - v ≤ TimeWindow) →
      runDeauth [] (subState D A ts) (pend.map (fun u => (D, A, u)) ++ rest) =
        runDeauth [] (subState D A (ts ++ pend)) rest := by
  intro pend
  induction pend with
  | nil => intro ts rest _ _; simp
  | cons u ps ih =>
    intro ts rest hlen hage
    have hlen1 : ts.length + 1 < Threshold := by
      simp only [List.length_cons] at hlen
      omega
    have hage1 : ∀ v ∈ ts, u - v ≤ TimeWindow := fun v hv =>
      hage u (by simp) v (List.mem_append_left _ hv)
    have hunb := DetectDeauth_unblocked [] (subState D A ts) D A u
      (by intro TB h; simp [alistGet] at h)
    have hstep := DeauthStep_subState D A ts u hlen1 hage1
    have hlen3 : (ts ++ [u]).length + ps.length < Threshold := by
      simp only [List.length_append, List.length_singleton, List.length_cons,
        List.length_nil] at hlen ⊢
      omega
    have hage3 : ∀ w ∈ ps, ∀ v ∈ (ts ++ [u]) ++ ps, w - v ≤ TimeWindow := by
      intro w hw v hv
      rw [← List.append_cons] at hv
      exact hage w (by simp [hw]) v hv
    simp only [List.map_cons, List.cons_append, runDeauth, hunb, hstep,
      Option.toList_none, List.nil_append, List.append_eq]
    rw [ih (ts ++ [u]) rest hlen3 hage3, ← List.append_cons]

/-- The fifteenth frame of a fresh burst crosses the threshold and publishes
the alert for the most frequent attacker in the window. -/
theorem DeauthStep_fifteenth (D A : String) (ts : List ℚ) (t : ℚ)
    (hlen : ts.length = 14)
    (hage : ∀ u ∈ ts, t - u ≤ TimeWindow) :
    DeauthStep (subState D A ts) D A t =
      (⟨[(D, (ts ++ [t]).map (fun u => (u, A)))], [(D, 15)], [(D, t)]⟩,
        some ⟨D, 15, 15, A⟩) := by
  have hp : prunedWindow (subState D A ts) D A t = (ts ++ [t]).map (fun u => (u, A)) :=
    prunedWindow_mapped _ D A ts t (by simp [subState, alistGet]) hage
  have hlen2 : (((ts ++ [t]).map (fun u => (u, A))).length) = 15 := by
    simp [hlen]
  have hc : Threshold ≤ 15 := by decide
  have hmc : MostCommon1 (((ts ++ [t]).map (fun u => (u, A))).map Prod.snd) = some A := by
    refine MostCommon1_const _ A (by simp) ?_
    intro x hx
    simp only [List.map_map, List.mem_map] at hx
    obtain ⟨u, _, rfl⟩ := hx
    rfl
  have hval : alistGet (subState D A ts).MaxDeauthCounts D = some ts.length := by
    simp [subState, alistGet]
  have hm : newMaxCount (subState D A ts) D 15 = 15 := by
    unfold newMaxCount
    rw [hval]
    simp only [hlen]
    decide
  have hla : alistGet (subState D A ts).LastAlertTime D = none := rfl
  simp only [DeauthStep, hp, hlen2]
  rw [if_pos hc]
  simp only [hmc, hm, hla, Option.getD_some]
  simp [subState, alistSet, alistErase]

/-- The frame after the threshold alert: the count rises to 16 and a second
alert is published iff at least one second has passed since the alert. -/
theorem DeauthStep_after_alert (D A : String) (ts : List ℚ) (tAl t : ℚ)
    (hlen : ts.length = 15)
    (hage : ∀ u ∈ ts, t - u ≤ TimeWindow) :
    DeauthStep (⟨[(D, ts.map (fun u => (u, A)))], [(D, 15)], [(D, tAl)]⟩ : DeauthState)
        D A t =
      if 1 ≤ t - tAl then
        (⟨[(D, (ts ++ [t]).map (fun u => (u, A)))], [(D, 16)], [(D, t)]⟩,
          some ⟨D, 16, 16, A⟩)
      else
        (⟨[(D, (ts ++ [t]).map (fun u => (u, A)))], [(D, 16)], [(D, tAl)]⟩, none) := by
  set st : DeauthState := ⟨[(D, ts.map (fun u => (u, A)))], [(D, 15)], [(D, tAl)]⟩ with hst
  have hp : prunedWindow st D A t = (ts ++ [t]).map (fun u => (u, A)) :=
    prunedWindow_mapped _ D A ts t (by simp [hst, alistGet]) hage
  have hlen2 : (((ts ++ [t]).map (fun u => (u, A))).length) = 16 := by
    simp [hlen]
  have hc : Threshold ≤ 16 := by decide
  have hmc : MostCommon1 (((ts ++ [t]).map (fun u => (u, A))).map Prod.snd) = some A := by
    refine MostCommon1_const _ A (by simp) ?_
    intro x hx
    simp only [List.map_map, List.mem_map] at hx
    obtain ⟨u, _, rfl⟩ := hx
    rfl
  have hval : alistGet st.MaxDeauthCounts D = some 15 := by
    simp [hst, alistGet]
  have hm : newMaxCount st D 16 = 16 := by
    unfold newMaxCount
    rw [hval]
    decide
  have hla : alistGet st.LastAlertTime D = some tAl := by
    simp [hst, alistGet]
  simp only [DeauthStep, hp, hlen2]
  rw [if_pos hc]
  simp only [hmc, hm, hla, Option.getD_some]
  split_ifs with hdeb
  · simp [hst, alistSet]
  · simp [hst, alistSet]


/-- Unfolding one frame of `runDeauth`, alert stream only. -/
theorem runDeauth_cons_snd (blocked : List (String × ℚ)) (st : DeauthState)
    (d a : String) (t : ℚ) (Fs : List (String × String × ℚ)) :
    (runDeauth blocked st ((d, a, t) :: Fs)).2 =
      (DetectDeauth blocked st d a t).2.toList ++
        (runDeauth blocked (DetectDeauth blocked st d a t).1 Fs).2 := rfl

/-- `runDeauth` on the empty frame list. -/
theorem runDeauth_nil (blocked : List (String × ℚ)) (st : DeauthState) :
    runDeauth blocked st [] = (st, []) := rfl

/-- The alert stream of a complete 16-frame burst (one destination, one
attacker, pairwise timestamps within 4 seconds, no block records, fresh
state): the fifteenth frame raises the alert, and the sixteenth raises a
second one iff it arrives at least one second after the fifteenth. -/
theorem runDeauth_burst16 (D A : String)
    (t1 t2 t3 t4 t5 t6 t7 t8 t9 t10 t11 t12 t13 t14 t15 t16 : ℚ)
    (hspan : ∀ x ∈ ([t1,t2,t3,t4,t5,t6,t7,t8,t9,t10,t11,t12,t13,t14,t15,t16] : List ℚ),
      ∀ y ∈ ([t1,t2,t3,t4,t5,t6,t7,t8,t9,t10,t11,t12,t13,t14,t15,t16] : List ℚ),
        x - y ≤ 4) :
    (runDeauth [] initDeauthState
        (([t1,t2,t3,t4,t5,t6,t7,t8,t9,t10,t11,t12,t13,t14,t15,t16] : List ℚ).map
          (fun u => (D, A, u)))).2 =
      if 1 ≤ t16 - t15 then
        [⟨D, 15, 15, A⟩, ⟨D, 16, 16, A⟩]
      else [⟨D, 15, 15, A⟩] := by
  have hs5 : ∀ x ∈ ([t1,t2,t3,t4,t5,t6,t7,t8,t9,t10,t11,t12,t13,t14,t15,t16] : List ℚ),
      ∀ y ∈ ([t1,t2,t3,t4,t5,t6,t7,t8,t9,t10,t11,t12,t13,t14,t15,t16] : List ℚ),
        x - y ≤ TimeWindow := by
    intro x hx y hy
    have := hspan x hx y hy
    simp only [TimeWindow]
    linarith
  have hunb : ∀ (st : DeauthState) (t : ℚ),
      DetectDeauth [] st D A t = DeauthStep st D A t :=
    fun st t => DetectDeauth_unblocked [] st D A t (by intro TB h; simp [alistGet] at h)
  have hage15 : ∀ u ∈ ([t1,t2,t3,t4,t5,t6,t7,t8,t9,t10,t11,t12,t13,t14] : List ℚ),
      t15 - u ≤ TimeWindow := by
    intro u hu
    refine hs5 t15 (by simp) u ?_
    simp only [List.mem_cons, List.not_mem_nil, or_false] at hu ⊢
    tauto
  have hage16 : ∀ u ∈ ([t1,t2,t3,t4,t5,t6,t7,t8,t9,t10,t11,t12,t13,t14,t15] : List ℚ),
      t16 - u ≤ TimeWindow := by
    intro u hu
    refine hs5 t16 (by simp) u ?_
    simp only [List.mem_cons, List.not_mem_nil, or_false] at hu ⊢
    tauto
  have hrun := runDeauth_subState D A [t2,t3,t4,t5,t6,t7,t8,t9,t10,t11,t12,t13,t14] [t1]
    [(D, A, t15), (D, A, t16)]
    (by simp [Threshold])
    (by
      intro u hu v hv
      refine hs5 u ?_ v ?_
      · simp only [List.mem_cons, List.not_mem_nil, or_false] at hu ⊢
        tauto
      · simp only [List.cons_append, List.nil_append, List.mem_cons,
          List.not_mem_nil, or_false] at hv ⊢
        tauto)
  simp only [List.map_cons, List.map_nil, List.cons_append, List.nil_append] at hrun
  simp only [List.map_cons, List.map_nil]
  rw [runDeauth_cons_snd]
  simp only [hunb, DeauthStep_init, Option.toList_none, List.nil_append]
  rw [hrun, runDeauth_cons_snd]
  simp only [hunb]
  rw [DeauthStep_fifteenth D A [t1,t2,t3,t4,t5,t6,t7,t8,t9,t10,t11,t12,t13,t14] t15
    (by simp) hage15]
  simp only [Option.toList_some, List.cons_append, List.nil_append]
  rw [runDeauth_cons_snd]
  simp only [hunb]
  rw [DeauthStep_after_alert D A [t1,t2,t3,t4,t5,t6,t7,t8,t9,t10,t11,t12,t13,t14,t15]
    t15 t16 (by simp) hage16]
  split_ifs with hdeb
  · simp [runDeauth_nil]
  · simp [runDeauth_nil]

/-- C1 (amended): a burst of 16 deauth frames for the same destination from
the same attacker within a 4-second span (fresh state, attacker not blocked)
produces exactly one `deauth_attack` alert — with `most_frequent_attacker`
equal to that attacker — provided the sixteenth frame arrives less than one
second after the fifteenth; otherwise the one-second debounce has expired
and the code publishes a second alert during the burst. -/
theorem C1_burst_single_alert (D A : String)
    (t1 t2 t3 t4 t5 t6 t7 t8 t9 t10 t11 t12 t13 t14 t15 t16 : ℚ)
    (hspan : ∀ x ∈ ([t1,t2,t3,t4,t5,t6,t7,t8,t9,t10,t11,t12,t13,t14,t15,t16] : List ℚ),
      ∀ y ∈ ([t1,t2,t3,t4,t5,t6,t7,t8,t9,t10,t11,t12,t13,t14,t15,t16] : List ℚ),
        x - y ≤ 4)
    (hdeb : t16 - t15 < 1) :
    (runDeauth [] initDeauthState
        (([t1,t2,t3,t4,t5,t6,t7,t8,t9,t10,t11,t12,t13,t14,t15,t16] : List ℚ).map
          (fun u => (D, A, u)))).2 = [⟨D, 15, 15, A⟩] := by
  rw [runDeauth_burst16 D A t1 t2 t3 t4 t5 t6 t7 t8 t9 t10 t11 t12 t13 t14 t15 t16 hspan,
    if_neg (not_le.mpr hdeb)]

/-- Witness for C1 (amended): sixteen simultaneous frames yield exactly the
one alert naming the attacker. -/
theorem C1_witness :
    (runDeauth [] initDeauthState
        (([0,0,0,0,0,0,0,0,0,0,0,0,0,0,0,0] : List ℚ).map
          (fun u => ("d", "a", u)))).2 = [⟨"d", 15, 15, "a"⟩] :=
  C1_burst_single_alert "d" "a" 0 0 0 0 0 0 0 0 0 0 0 0 0 0 0 0
    (by
      intro x hx y hy
      simp only [List.mem_cons, List.not_mem_nil, or_false] at hx hy
      rcases hx with rfl | rfl | rfl | rfl | rfl | rfl | rfl | rfl | rfl | rfl | rfl | rfl | rfl | rfl | rfl | rfl <;>
        rcases hy with rfl | rfl | rfl | rfl | rfl | rfl | rfl | rfl | rfl | rfl | rfl | rfl | rfl | rfl | rfl | rfl <;>
        norm_num)
    (by norm_num)

/-- C1 counterexample: sixteen frames from one attacker to one destination,
all within a 4-second span (fifteen at time 0 and one at time 2), yet two
`deauth_attack` alerts are published during the burst, because the sixteenth
frame falls outside the one-second alert debounce. -/
theorem C1_counterexample :
    ((2:ℚ) - 0 ≤ 4) ∧
    (runDeauth [] initDeauthState
        (([0,0,0,0,0,0,0,0,0,0,0,0,0,0,0,2] : List ℚ).map
          (fun u => ("d", "a", u)))).2 =
      [⟨"d", 15, 15, "a"⟩, ⟨"d", 16, 16, "a"⟩] := by
  refine ⟨by norm_num, ?_⟩
  rw [runDeauth_burst16 "d" "a" 0 0 0 0 0 0 0 0 0 0 0 0 0 0 0 2
    (by
      intro x hx y hy
      simp only [List.mem_cons, List.not_mem_nil, or_false] at hx hy
      rcases hx with rfl | rfl | rfl | rfl | rfl | rfl | rfl | rfl | rfl | rfl | rfl | rfl | rfl | rfl | rfl | rfl <;>
        rcases hy with rfl | rfl | rfl | rfl | rfl | rfl | rfl | rfl | rfl | rfl | rfl | rfl | rfl | rfl | rfl | rfl <;>
        norm_num),
    if_pos (by norm_num)]

end WiFiTool
